import Mathlib

/-! DepthClipper: the shader binding contract (`ShaderTypes.h`)

`ShaderTypes.h` is shared by the host renderer and the Metal shaders.  It
declares two enumerations of binding slots and one plain record of per-draw
parameters.  This file embeds those declarations and proves the structural
properties of the contract: the slot numbering, the record's field list, its
byte layout under the C struct layout rule, and the byte-level round trip of a
record value between the two sides.

The sizes and alignments of `matrix_float3x3`, `float` and `int` come from the
platform (`<simd/simd.h>` and the C ABI), not from the header; they enter the
development as a parameter, `TypeTable`.
-/

namespace DepthClipper

/-! ## Enumerations -/

/-- The enumeration `TextureIndices`: four enumerators, in declaration order. -/
inductive TextureIndices where
  | kTextureY
  | kTextureCbCr
  | kTextureDepth
  | kTextureConfidence
  deriving DecidableEq, Repr, Fintype

/-- The integer each enumerator of `TextureIndices` is declared equal to (the
header gives every enumerator an explicit non-negative literal). -/
def TextureIndices.value : TextureIndices → Nat
  | .kTextureY => 0
  | .kTextureCbCr => 1
  | .kTextureDepth => 2
  | .kTextureConfidence => 3

/-- The enumerators of `TextureIndices` in the order the header lists them. -/
def TextureIndices.declared : List TextureIndices :=
  [.kTextureY, .kTextureCbCr, .kTextureDepth, .kTextureConfidence]

/-- The number of texture binding points the enumeration addresses. -/
def textureSlotCount : Nat := TextureIndices.declared.length

/-- An enumerator used as an index into a table of `textureSlotCount` textures. -/
def TextureIndices.slot (t : TextureIndices) : Fin textureSlotCount :=
  ⟨t.value, by cases t <;> decide⟩

/-- The enumeration `BufferIndices`: a single enumerator. -/
inductive BufferIndices where
  | kCompositeUniforms
  deriving DecidableEq, Repr, Fintype

/-- The integer each enumerator of `BufferIndices` is declared equal to. -/
def BufferIndices.value : BufferIndices → Nat
  | .kCompositeUniforms => 0

/-- The enumerators of `BufferIndices` in the order the header lists them. -/
def BufferIndices.declared : List BufferIndices := [.kCompositeUniforms]

/-! ## The declaration of `struct CompositeUniforms` -/

/-- The C types the fields of `CompositeUniforms` are declared with. -/
inductive CType where
  | matrix_float3x3
  | float
  | int
  deriving DecidableEq, Repr

/-- Whether a C type is an integer type or a floating-point one. -/
inductive TypeClass where
  | integer
  | floating
  deriving DecidableEq, Repr

/-- The class of each field type: `int` is an integer type, `float` and the
matrix of floats are floating-point. -/
def CType.typeClass : CType → TypeClass
  | .matrix_float3x3 => .floating
  | .float => .floating
  | .int => .integer

/-- The field names of `struct CompositeUniforms`. -/
inductive FieldName where
  | viewToCamera
  | nearDepthThreshold
  | farDepthThreshold
  | confidenceThreshold
  deriving DecidableEq, Repr, Fintype

/-- One member declaration of a struct: a type and a name. -/
structure FieldDecl where
  type : CType
  name : FieldName
  deriving DecidableEq, Repr

/-- The member declarations of `struct CompositeUniforms`, in source order. -/
def CompositeUniforms.decl : List FieldDecl :=
  [ ⟨.matrix_float3x3, .viewToCamera⟩,
    ⟨.float, .nearDepthThreshold⟩,
    ⟨.float, .farDepthThreshold⟩,
    ⟨.int, .confidenceThreshold⟩ ]

/-! ## Struct layout -/

/-- Size and alignment of a type, in bytes. -/
structure TypeLayout where
  size : Nat
  align : Nat
  deriving DecidableEq, Repr

/-- The platform's size and alignment for each field type.  The header takes
them from `<simd/simd.h>` and the compiler, so they are a parameter here. -/
abbrev TypeTable := CType → TypeLayout

/-- The table of the platforms the application targets: `matrix_float3x3` is
three 16-byte columns, `float` and `int` are four bytes. -/
def appleTable : TypeTable
  | .matrix_float3x3 => ⟨48, 16⟩
  | .float => ⟨4, 4⟩
  | .int => ⟨4, 4⟩

/-- The least multiple of `a` that is at least `n`. -/
def alignUp (n a : Nat) : Nat := (n + a - 1) / a * a

/-- Where one field of a struct sits. -/
structure FieldLayout where
  name : FieldName
  offset : Nat
  size : Nat
  align : Nat
  deriving DecidableEq, Repr

/-- The layout description of a struct: its fields in order, its total size and
its alignment. -/
structure StructLayout where
  fields : List FieldLayout
  size : Nat
  align : Nat
  deriving DecidableEq, Repr

/-- The C struct layout rule, which the compiler applies to the header on both
sides: the fields are placed one after another, each at the next offset from
`cur` that is a multiple of its alignment. -/
def placeFields (abi : TypeTable) : Nat → List FieldDecl → List FieldLayout
  | _, [] => []
  | cur, f :: fs =>
    let off := alignUp cur (abi f.type).align
    ⟨f.name, off, (abi f.type).size, (abi f.type).align⟩ ::
      placeFields abi (off + (abi f.type).size) fs

/-- The first byte after the last placed field. -/
def endOfFields (fields : List FieldLayout) : Nat :=
  fields.foldl (fun _ f => f.offset + f.size) 0

/-- The alignment of a struct: the largest alignment among its fields. -/
def structAlign (abi : TypeTable) (decl : List FieldDecl) : Nat :=
  decl.foldl (fun a f => max a (abi f.type).align) 1

/-- The C struct layout rule applied to a list of member declarations. -/
def structLayout (abi : TypeTable) (decl : List FieldDecl) : StructLayout :=
  let fields := placeFields abi 0 decl
  let align := structAlign abi decl
  ⟨fields, alignUp (endOfFields fields) align, align⟩

/-- The offset of a named field in a layout (0 for a name the layout lacks). -/
def StructLayout.offsetOf (L : StructLayout) (n : FieldName) : Nat :=
  match L.fields.find? (fun f => f.name == n) with
  | some f => f.offset
  | none => 0

/-- The bytes between the end of each field and the start of the next. -/
def gaps : List FieldLayout → List Nat
  | f :: g :: rest => (g.offset - (f.offset + f.size)) :: gaps (g :: rest)
  | _ => []

/-- Two placed fields share no byte. -/
def FieldLayout.disjoint (f g : FieldLayout) : Prop :=
  f.offset + f.size ≤ g.offset ∨ g.offset + g.size ≤ f.offset

instance (f g : FieldLayout) : Decidable (f.disjoint g) := by
  unfold FieldLayout.disjoint; infer_instance

/-! ## Values of `struct CompositeUniforms`

Floats are carried as their 32-bit patterns, so that a value is exactly what
the record's bytes hold. -/

/-- A column of the matrix, `simd_float3`: three floats, as bit patterns. -/
structure simd_float3 where
  x : Nat
  y : Nat
  z : Nat
  deriving DecidableEq, Repr

/-- The type `matrix_float3x3` of `<simd/simd.h>`: three columns. -/
structure matrix_float3x3 where
  col0 : simd_float3
  col1 : simd_float3
  col2 : simd_float3
  deriving DecidableEq, Repr

/-- A value of `struct CompositeUniforms`: one component per declared field. -/
structure CompositeUniforms where
  viewToCamera : matrix_float3x3
  nearDepthThreshold : Nat
  farDepthThreshold : Nat
  confidenceThreshold : Int
  deriving DecidableEq, Repr

/-- A 32-bit pattern. -/
def isBits32 (v : Nat) : Prop := v < 2 ^ 32

/-- A value of a 32-bit two's-complement `int`. -/
def isInt32 (c : Int) : Prop := -(2 ^ 31) ≤ c ∧ c < 2 ^ 31

instance (v : Nat) : Decidable (isBits32 v) := by
  unfold isBits32; infer_instance

instance (c : Int) : Decidable (isInt32 c) := by
  unfold isInt32; infer_instance

/-- Every component of a column is a 32-bit pattern. -/
def simd_float3.InRange (c : simd_float3) : Prop :=
  isBits32 c.x ∧ isBits32 c.y ∧ isBits32 c.z

/-- Every entry of a matrix is a 32-bit pattern. -/
def matrix_float3x3.InRange (m : matrix_float3x3) : Prop :=
  m.col0.InRange ∧ m.col1.InRange ∧ m.col2.InRange

/-- The only restriction on a record value is the one its field types impose:
each float is a 32-bit pattern and the `int` is a 32-bit signed integer.  No
condition relates one field to another. -/
def CompositeUniforms.InRange (u : CompositeUniforms) : Prop :=
  u.viewToCamera.InRange ∧ isBits32 u.nearDepthThreshold ∧
    isBits32 u.farDepthThreshold ∧ isInt32 u.confidenceThreshold

instance (c : simd_float3) : Decidable c.InRange := by
  unfold simd_float3.InRange; infer_instance

instance (m : matrix_float3x3) : Decidable m.InRange := by
  unfold matrix_float3x3.InRange; infer_instance

instance (u : CompositeUniforms) : Decidable u.InRange := by
  unfold CompositeUniforms.InRange; infer_instance

/-! ## Bytes of a record -/

/-- Store a 32-bit pattern at `addr`, least significant byte first. -/
def store32 (buf : List Nat) (addr v : Nat) : List Nat :=
  (((buf.set addr (v % 256)).set (addr + 1) (v / 2 ^ 8 % 256)).set
    (addr + 2) (v / 2 ^ 16 % 256)).set (addr + 3) (v / 2 ^ 24 % 256)

/-- Load the 32-bit pattern at `addr`, least significant byte first. -/
def load32 (buf : List Nat) (addr : Nat) : Nat :=
  buf.getD addr 0 + 2 ^ 8 * buf.getD (addr + 1) 0 + 2 ^ 16 * buf.getD (addr + 2) 0 +
    2 ^ 24 * buf.getD (addr + 3) 0

/-- The 32-bit two's-complement pattern of an `int`. -/
def intToBits (c : Int) : Nat := (c % 2 ^ 32).toNat

/-- The `int` a 32-bit two's-complement pattern stands for. -/
def bitsToInt (n : Nat) : Int := if n < 2 ^ 31 then (n : Int) else (n : Int) - 2 ^ 32

/-- The distance between two columns of a `matrix_float3x3`: the matrix is an
array of three columns, so each takes a third of it. -/
def columnStride (abi : TypeTable) : Nat := (abi .matrix_float3x3).size / 3

/-- Store a column: its three floats, four bytes apart. -/
def storeColumn (buf : List Nat) (addr : Nat) (c : simd_float3) : List Nat :=
  store32 (store32 (store32 buf addr c.x) (addr + 4) c.y) (addr + 8) c.z

/-- Load a column. -/
def loadColumn (buf : List Nat) (addr : Nat) : simd_float3 :=
  ⟨load32 buf addr, load32 buf (addr + 4), load32 buf (addr + 8)⟩

/-- Store a matrix: its three columns, `stride` bytes apart. -/
def storeMatrix (buf : List Nat) (addr stride : Nat) (m : matrix_float3x3) : List Nat :=
  storeColumn (storeColumn (storeColumn buf addr m.col0) (addr + stride) m.col1)
    (addr + 2 * stride) m.col2

/-- Load a matrix. -/
def loadMatrix (buf : List Nat) (addr stride : Nat) : matrix_float3x3 :=
  ⟨loadColumn buf addr, loadColumn buf (addr + stride), loadColumn buf (addr + 2 * stride)⟩

/-- The bytes of a record as one side lays it out: a buffer of the struct's
size, padding zeroed, each field stored at its offset. -/
def writeUniforms (abi : TypeTable) (u : CompositeUniforms) : List Nat :=
  let L := structLayout abi CompositeUniforms.decl
  let b0 := List.replicate L.size 0
  let b1 := storeMatrix b0 (L.offsetOf .viewToCamera) (columnStride abi) u.viewToCamera
  let b2 := store32 b1 (L.offsetOf .nearDepthThreshold) u.nearDepthThreshold
  let b3 := store32 b2 (L.offsetOf .farDepthThreshold) u.farDepthThreshold
  store32 b3 (L.offsetOf .confidenceThreshold) (intToBits u.confidenceThreshold)

/-- The record one side reads out of a buffer: each field loaded from its
offset in that side's layout. -/
def readUniforms (abi : TypeTable) (buf : List Nat) : CompositeUniforms :=
  let L := structLayout abi CompositeUniforms.decl
  { viewToCamera := loadMatrix buf (L.offsetOf .viewToCamera) (columnStride abi)
    nearDepthThreshold := load32 buf (L.offsetOf .nearDepthThreshold)
    farDepthThreshold := load32 buf (L.offsetOf .farDepthThreshold)
    confidenceThreshold := bitsToInt (load32 buf (L.offsetOf .confidenceThreshold)) }

/-- What the round trip needs of a type table: `float` and `int` are four
bytes, the matrix has room for three columns of three floats, and the scalar
alignments are positive. -/
def TypeTable.Fits32 (abi : TypeTable) : Prop :=
  36 ≤ (abi .matrix_float3x3).size ∧ (abi .float).size = 4 ∧ (abi .int).size = 4 ∧
    0 < (abi .float).align ∧ 0 < (abi .int).align

instance (abi : TypeTable) : Decidable abi.Fits32 := by
  unfold TypeTable.Fits32; infer_instance

/-- The identity matrix: 1.0 (pattern `0x3F800000`) on the diagonal. -/
def identityMatrix : matrix_float3x3 :=
  ⟨⟨0x3F800000, 0, 0⟩, ⟨0, 0x3F800000, 0⟩, ⟨0, 0, 0x3F800000⟩⟩

/-- The record of the end-to-end scenario: identity, near 0.1 (`0x3DCCCCCD`),
far 5.0 (`0x40A00000`), confidence threshold 2. -/
def scenario : CompositeUniforms :=
  ⟨identityMatrix, 0x3DCCCCCD, 0x40A00000, 2⟩

/-- The rational a finite binary32 pattern stands for (IEEE 754): a sign bit,
eight exponent bits biased by 127 and 23 fraction bits; `none` for the
infinities and NaN. -/
def float32Value (b : Nat) : Option ℚ :=
  let s : Nat := b / 2 ^ 31 % 2
  let e : Nat := b / 2 ^ 23 % 256
  let m : Nat := b % 2 ^ 23
  let n : Nat := 2 ^ 23 + m
  if e = 255 then none
  else
    let mag : ℚ :=
      if e = 0 then (m : ℚ) / 2 ^ 149
      else if 150 ≤ e then (n : ℚ) * 2 ^ (e - 150)
      else (n : ℚ) / 2 ^ (150 - e)
    some (if s = 1 then -mag else mag)

/-- A record whose near threshold (5.0) exceeds its far threshold (0.1) and
whose confidence threshold is negative. -/
def inverted : CompositeUniforms :=
  ⟨identityMatrix, 0x40A00000, 0x3DCCCCCD, -1⟩

/-! ## Lemmas on buffers and alignment -/

/-- Reading a byte after a single-byte write. -/
theorem getD_set (l : List Nat) (i j a : Nat) :
    (l.set i a).getD j 0 = if i = j ∧ i < l.length then a else l.getD j 0 := by
  simp only [List.getD_eq_getElem?_getD, List.getElem?_set]
  by_cases h : i = j
  · subst h
    by_cases h2 : i < l.length
    · simp [h2]
    · have h3 : l[i]? = none := List.getElem?_eq_none (by omega)
      simp [h2, h3]
  · simp [h]

/-- A store does not change the size of the buffer. -/
theorem length_store32 (buf : List Nat) (addr v : Nat) :
    (store32 buf addr v).length = buf.length := by
  simp [store32]

/-- A load returns the pattern just stored at the same address. -/
theorem load32_store32_same (buf : List Nat) (addr v : Nat)
    (hb : addr + 4 ≤ buf.length) (hv : v < 2 ^ 32) :
    load32 (store32 buf addr v) addr = v := by
  simp only [load32, store32, getD_set, List.length_set]
  have h0 : addr < buf.length := by omega
  have h1 : addr + 1 < buf.length := by omega
  have h2 : addr + 2 < buf.length := by omega
  have h3 : addr + 3 < buf.length := by omega
  simp [h0, h1, h2, h3]
  omega

/-- A store leaves every disjoint 4-byte cell unchanged. -/
theorem load32_store32_other (buf : List Nat) (a b v : Nat)
    (h : a + 4 ≤ b ∨ b + 4 ≤ a) :
    load32 (store32 buf a v) b = load32 buf b := by
  simp only [load32, store32, getD_set, List.length_set]
  have e : ∀ i j : Nat, i < 4 → j < 4 → ¬ (a + i = b + j) := by
    intro i j hi hj; omega
  have e0 := e 0 0 (by omega) (by omega)
  simp only [Nat.add_zero] at e0
  have e1 := e 0
  simp only [Nat.add_zero] at e1
  have e2 : ∀ i : Nat, i < 4 → ¬ (a + i = b) := by
    intro i hi; have := e i 0 hi (by omega); simpa using this
  simp [e0, e1 1, e1 2, e1 3, e2 1, e2 2, e2 3, e 1 1, e 1 2, e 1 3, e 2 1, e 2 2, e 2 3, e 3 1, e 3 2, e 3 3]

/-- Aligning up never moves an offset down. -/
theorem le_alignUp (n a : Nat) (h : 0 < a) : n ≤ alignUp n a := by
  unfold alignUp
  have h1 := Nat.div_add_mod (n + a - 1) a
  have h2 := Nat.mod_lt (n + a - 1) h
  have h3 : a * ((n + a - 1) / a) = (n + a - 1) / a * a := Nat.mul_comm _ _
  omega

/-- Offset 0 is aligned for every alignment. -/
theorem alignUp_zero (a : Nat) : alignUp 0 a = 0 := by
  unfold alignUp
  rcases Nat.eq_zero_or_pos a with h | h
  · subst h; simp
  · have : (0 + a - 1) / a = 0 := Nat.div_eq_of_lt (by omega)
    rw [this, Nat.zero_mul]

/-- The two's-complement pattern of an `int` is a 32-bit pattern. -/
theorem intToBits_lt (c : Int) : intToBits c < 2 ^ 32 := by
  unfold intToBits
  omega

/-- Decoding the pattern of a 32-bit `int` gives the `int` back. -/
theorem bitsToInt_intToBits (c : Int) (h : isInt32 c) : bitsToInt (intToBits c) = c := by
  unfold isInt32 at h
  unfold bitsToInt intToBits
  split <;> omega

/-- The layout of `CompositeUniforms` written out as a function of the sizes
and alignments of its three field types. -/
theorem structLayout_decl (abi : TypeTable) :
    structLayout abi CompositeUniforms.decl =
      let m := abi .matrix_float3x3
      let f := abi .float
      let i := abi .int
      let o1 := alignUp m.size f.align
      let o2 := alignUp (o1 + f.size) f.align
      let o3 := alignUp (o2 + f.size) i.align
      let a := max (max (max (max 1 m.align) f.align) f.align) i.align
      ⟨[⟨.viewToCamera, 0, m.size, m.align⟩, ⟨.nearDepthThreshold, o1, f.size, f.align⟩,
        ⟨.farDepthThreshold, o2, f.size, f.align⟩, ⟨.confidenceThreshold, o3, i.size, i.align⟩],
        alignUp (o3 + i.size) a, a⟩ := by
  simp [structLayout, CompositeUniforms.decl, placeFields, structAlign, endOfFields, alignUp_zero]

/-- Round trip at explicit offsets: a matrix at 0 with column stride `s`, then
three 4-byte cells at increasing offsets, all inside a buffer of `N` bytes. -/
theorem roundtrip_at (N s o1 o2 o3 : Nat) (u : CompositeUniforms) (hu : u.InRange)
    (hs : 12 ≤ s) (h1 : 2 * s + 12 ≤ o1) (h2 : o1 + 4 ≤ o2) (h3 : o2 + 4 ≤ o3)
    (hN : o3 + 4 ≤ N) :
    let buf := store32 (store32 (store32 (storeMatrix (List.replicate N 0) 0 s u.viewToCamera)
      o1 u.nearDepthThreshold) o2 u.farDepthThreshold) o3 (intToBits u.confidenceThreshold)
    (⟨loadMatrix buf 0 s, load32 buf o1, load32 buf o2, bitsToInt (load32 buf o3)⟩ :
      CompositeUniforms) = u := by
  obtain ⟨m, n, f, c⟩ := u
  obtain ⟨⟨x0, y0, z0⟩, ⟨x1, y1, z1⟩, ⟨x2, y2, z2⟩⟩ := m
  simp only [CompositeUniforms.InRange, matrix_float3x3.InRange, simd_float3.InRange,
    isBits32] at hu
  obtain ⟨⟨⟨_, _, _⟩, ⟨_, _, _⟩, ⟨_, _, _⟩⟩, _, _, hc⟩ := hu
  have hi := intToBits_lt c
  simp only [storeMatrix, storeColumn, loadMatrix, loadColumn]
  simp (disch := first | omega | (simp only [length_store32, List.length_replicate]; omega)) only
    [load32_store32_other, load32_store32_same, bitsToInt_intToBits c hc]

/-! ## The binding slots -/

/-- C1: `TextureIndices` has exactly four members, `kTextureY`, `kTextureCbCr`,
`kTextureDepth` and `kTextureConfidence`; their values are pairwise distinct,
the set of values is exactly {0, 1, 2, 3}, and the map from a member to its
slot in a four-entry texture table is a bijection. -/
theorem TextureIndices_values_exact :
    Fintype.card TextureIndices = 4 ∧
    (∀ t : TextureIndices, t = .kTextureY ∨ t = .kTextureCbCr ∨ t = .kTextureDepth ∨
      t = .kTextureConfidence) ∧
    Function.Injective TextureIndices.value ∧
    Set.range TextureIndices.value = {0, 1, 2, 3} ∧
    textureSlotCount = 4 ∧
    Function.Bijective TextureIndices.slot := by
  have hinj : Function.Injective TextureIndices.value := by
    intro a b h
    cases a <;> cases b <;> simp [TextureIndices.value] at h <;> rfl
  refine ⟨rfl, ?_, hinj, ?_, rfl, ?_, ?_⟩
  · intro t
    cases t <;> simp
  · ext n
    simp only [Set.mem_range, Set.mem_insert_iff, Set.mem_singleton_iff]
    constructor
    · rintro ⟨t, rfl⟩
      cases t <;> simp [TextureIndices.value]
    · rintro (rfl | rfl | rfl | rfl)
      · exact ⟨.kTextureY, rfl⟩
      · exact ⟨.kTextureCbCr, rfl⟩
      · exact ⟨.kTextureDepth, rfl⟩
      · exact ⟨.kTextureConfidence, rfl⟩
  · intro a b h
    exact hinj (congrArg Fin.val h)
  · intro i
    have hi : i.val < 4 := i.isLt
    have h4 : i.val = 0 ∨ i.val = 1 ∨ i.val = 2 ∨ i.val = 3 := by omega
    rcases h4 with h | h | h | h
    · exact ⟨.kTextureY, Fin.ext h.symm⟩
    · exact ⟨.kTextureCbCr, Fin.ext h.symm⟩
    · exact ⟨.kTextureDepth, Fin.ext h.symm⟩
    · exact ⟨.kTextureConfidence, Fin.ext h.symm⟩

/-- C2: the slots follow the declaration order: the luma plane `kTextureY` is 0,
the chroma plane `kTextureCbCr` is 1, the depth map `kTextureDepth` is 2 and the
confidence map `kTextureConfidence` is 3, so the values strictly increase along
the list of enumerators as declared. -/
theorem TextureIndices_declaration_order :
    TextureIndices.kTextureY.value = 0 ∧
    TextureIndices.kTextureCbCr.value = 1 ∧
    TextureIndices.kTextureDepth.value = 2 ∧
    TextureIndices.kTextureConfidence.value = 3 ∧
    TextureIndices.declared.map TextureIndices.value = [0, 1, 2, 3] ∧
    List.Pairwise (fun a b => a < b) (TextureIndices.declared.map TextureIndices.value) := by
  refine ⟨rfl, rfl, rfl, rfl, rfl, ?_⟩
  simp [TextureIndices.declared, TextureIndices.value]

/-- C3: `BufferIndices` has exactly one member, `kCompositeUniforms`, and its
value is 0. -/
theorem BufferIndices_single_zero :
    Fintype.card BufferIndices = 1 ∧
    BufferIndices.declared = [.kCompositeUniforms] ∧
    (∀ b : BufferIndices, b = .kCompositeUniforms) ∧
    BufferIndices.kCompositeUniforms.value = 0 ∧
    (∀ b : BufferIndices, b.value = 0) := by
  refine ⟨rfl, rfl, ?_, rfl, ?_⟩
  · intro b
    cases b
    rfl
  · intro b
    cases b
    rfl

/-! ## The record -/

/-- C4: `CompositeUniforms` has exactly four fields, in the order `viewToCamera`
(a matrix of floats), `nearDepthThreshold` (float), `farDepthThreshold` (float),
`confidenceThreshold` (integer); its layout description is a function of that
declaration and of the sizes and alignments of the three field types alone, so
two computations with the same type sizes give the same description. -/
theorem CompositeUniforms_layout_fixed :
    CompositeUniforms.decl.length = 4 ∧
    CompositeUniforms.decl.map FieldDecl.name =
      [.viewToCamera, .nearDepthThreshold, .farDepthThreshold, .confidenceThreshold] ∧
    CompositeUniforms.decl.map FieldDecl.type = [.matrix_float3x3, .float, .float, .int] ∧
    CompositeUniforms.decl.map (fun f => f.type.typeClass) =
      [.floating, .floating, .floating, .integer] ∧
    (∀ abi : TypeTable,
      (structLayout abi CompositeUniforms.decl).fields.map FieldLayout.name =
        CompositeUniforms.decl.map FieldDecl.name ∧
      (structLayout abi CompositeUniforms.decl).fields.map FieldLayout.size =
        CompositeUniforms.decl.map (fun f => (abi f.type).size) ∧
      (structLayout abi CompositeUniforms.decl).fields.map FieldLayout.offset =
        [0, alignUp (abi .matrix_float3x3).size (abi .float).align,
          alignUp (alignUp (abi .matrix_float3x3).size (abi .float).align + (abi .float).size)
            (abi .float).align,
          alignUp (alignUp (alignUp (abi .matrix_float3x3).size (abi .float).align +
            (abi .float).size) (abi .float).align + (abi .float).size) (abi .int).align]) ∧
    (∀ host shader : TypeTable, (∀ t, host t = shader t) →
      structLayout host CompositeUniforms.decl = structLayout shader CompositeUniforms.decl) := by
  refine ⟨rfl, rfl, rfl, rfl, ?_, ?_⟩
  · intro abi
    rw [structLayout_decl]
    simp [CompositeUniforms.decl]
  · intro host shader h
    rw [funext h]

/-- C4, at the platform table: the layout computed on the host side and the one
computed on the shader side coincide. -/
theorem CompositeUniforms_layout_fixed_witness :
    structLayout appleTable CompositeUniforms.decl =
      structLayout (fun t => appleTable t) CompositeUniforms.decl :=
  CompositeUniforms_layout_fixed.2.2.2.2.2 appleTable (fun t => appleTable t) (fun _ => rfl)

/-- C5: when the shader side uses the same sizes and alignments as the host
side (with four-byte `float` and `int`), the record the shader reads out of the
bytes the host wrote is the record the host wrote, field for field. -/
theorem CompositeUniforms_roundtrip (host shader : TypeTable) (u : CompositeUniforms)
    (hfit : host.Fits32) (hsame : ∀ t, shader t = host t) (hu : u.InRange) :
    readUniforms shader (writeUniforms host u) = u := by
  have hs : shader = host := funext hsame
  subst hs
  obtain ⟨hm, hf, hi, haf, hai⟩ := hfit
  have a1 := le_alignUp (shader .matrix_float3x3).size (shader .float).align haf
  have a2 := le_alignUp (alignUp (shader .matrix_float3x3).size (shader .float).align + 4)
    (shader .float).align haf
  have a3 := le_alignUp (alignUp (alignUp (shader .matrix_float3x3).size (shader .float).align + 4)
    (shader .float).align + 4) (shader .int).align hai
  have a4 := le_alignUp (alignUp (alignUp (alignUp (shader .matrix_float3x3).size
    (shader .float).align + 4) (shader .float).align + 4) (shader .int).align + 4)
    (max (max (max (max 1 (shader .matrix_float3x3).align) (shader .float).align)
      (shader .float).align) (shader .int).align) (by omega)
  have hstride : 12 ≤ columnStride shader ∧
      3 * columnStride shader ≤ (shader .matrix_float3x3).size := by
    unfold columnStride
    omega
  have key := roundtrip_at _ (columnStride shader) _ _ _ u hu hstride.1
    (by omega : 2 * columnStride shader + 12 ≤
      alignUp (shader .matrix_float3x3).size (shader .float).align) a2 a3 a4
  simpa [readUniforms, writeUniforms, structLayout_decl, StructLayout.offsetOf, hf, hi] using key

/-- C5, the end-to-end scenario: the identity matrix, near 0.1, far 5.0 and
confidence threshold 2 survive the round trip under the platform table. -/
theorem CompositeUniforms_roundtrip_witness :
    appleTable.Fits32 ∧ scenario.InRange ∧
    float32Value scenario.viewToCamera.col0.x = some 1 ∧
    float32Value scenario.farDepthThreshold = some 5 ∧
    (∃ q, float32Value scenario.nearDepthThreshold = some q ∧ |q - 1 / 10| ≤ 1 / 2 ^ 28) ∧
    readUniforms appleTable (writeUniforms appleTable scenario) = scenario := by
  refine ⟨by decide, by decide, by norm_num [float32Value, scenario, identityMatrix],
    by norm_num [float32Value, scenario], ?_,
    CompositeUniforms_roundtrip appleTable appleTable scenario (by decide) (fun _ => rfl)
      (by decide)⟩
  refine ⟨13421773 / 134217728, by norm_num [float32Value, scenario], ?_⟩
  rw [abs_le]
  constructor <;> norm_num

/-- C7: with `matrix_float3x3` 48 bytes aligned to 16 and `float` and `int` four
bytes aligned to 4, the C layout rule puts `viewToCamera` at 0,
`nearDepthThreshold` at 48, `farDepthThreshold` at 52 and `confidenceThreshold`
at 56, each at a multiple of its alignment, with no padding between consecutive
fields and no two fields overlapping; the struct is aligned to 16 and is 64
bytes long, the last 4 of them tail padding. -/
theorem CompositeUniforms_offsets (abi : TypeTable)
    (hm : abi .matrix_float3x3 = ⟨48, 16⟩) (hf : abi .float = ⟨4, 4⟩)
    (hi : abi .int = ⟨4, 4⟩) :
    structLayout abi CompositeUniforms.decl =
      ⟨[⟨.viewToCamera, 0, 48, 16⟩, ⟨.nearDepthThreshold, 48, 4, 4⟩,
        ⟨.farDepthThreshold, 52, 4, 4⟩, ⟨.confidenceThreshold, 56, 4, 4⟩], 64, 16⟩ ∧
    (structLayout abi CompositeUniforms.decl).offsetOf .viewToCamera = 0 ∧
    (structLayout abi CompositeUniforms.decl).offsetOf .nearDepthThreshold = 48 ∧
    (structLayout abi CompositeUniforms.decl).offsetOf .farDepthThreshold = 52 ∧
    (structLayout abi CompositeUniforms.decl).offsetOf .confidenceThreshold = 56 ∧
    (∀ f ∈ (structLayout abi CompositeUniforms.decl).fields, f.offset % f.align = 0) ∧
    gaps (structLayout abi CompositeUniforms.decl).fields = [0, 0, 0] ∧
    (structLayout abi CompositeUniforms.decl).fields.Pairwise FieldLayout.disjoint ∧
    (structLayout abi CompositeUniforms.decl).align = 16 ∧
    (structLayout abi CompositeUniforms.decl).size = 64 ∧
    (structLayout abi CompositeUniforms.decl).size -
      endOfFields (structLayout abi CompositeUniforms.decl).fields = 4 := by
  have hL : structLayout abi CompositeUniforms.decl =
      ⟨[⟨.viewToCamera, 0, 48, 16⟩, ⟨.nearDepthThreshold, 48, 4, 4⟩,
        ⟨.farDepthThreshold, 52, 4, 4⟩, ⟨.confidenceThreshold, 56, 4, 4⟩], 64, 16⟩ := by
    rw [structLayout_decl]
    simp [hm, hf, hi, alignUp]
  rw [hL]
  refine ⟨rfl, rfl, rfl, rfl, rfl, ?_, rfl, ?_, rfl, rfl, rfl⟩
  · intro f hmem
    simp only [List.mem_cons, List.mem_singleton, List.not_mem_nil, or_false] at hmem
    rcases hmem with rfl | rfl | rfl | rfl <;> rfl
  · simp [FieldLayout.disjoint]

/-- C7, at the platform table. -/
theorem CompositeUniforms_offsets_witness :
    structLayout appleTable CompositeUniforms.decl =
      ⟨[⟨.viewToCamera, 0, 48, 16⟩, ⟨.nearDepthThreshold, 48, 4, 4⟩,
        ⟨.farDepthThreshold, 52, 4, 4⟩, ⟨.confidenceThreshold, 56, 4, 4⟩], 64, 16⟩ :=
  (CompositeUniforms_offsets appleTable rfl rfl rfl).1

/-- C8: the record carries no validity constraint: whatever matrix, near and far
thresholds and confidence threshold the field types admit, there is a record
with exactly those fields; nothing requires near <= far or a non-negative
confidence threshold. -/
theorem CompositeUniforms_unconstrained (m : matrix_float3x3) (near far : Nat) (c : Int)
    (hm : m.InRange) (hn : isBits32 near) (hf : isBits32 far) (hc : isInt32 c) :
    ∃ u : CompositeUniforms, u.InRange ∧ u.viewToCamera = m ∧ u.nearDepthThreshold = near ∧
      u.farDepthThreshold = far ∧ u.confidenceThreshold = c :=
  ⟨⟨m, near, far, c⟩, ⟨hm, hn, hf, hc⟩, rfl, rfl, rfl, rfl⟩

/-- C8, at a record with near 5.0 above far 0.1 and confidence threshold -1. -/
theorem CompositeUniforms_unconstrained_witness :
    (∃ q r, float32Value inverted.nearDepthThreshold = some q ∧
      float32Value inverted.farDepthThreshold = some r ∧ r < q) ∧
    inverted.confidenceThreshold < 0 ∧
    ∃ u : CompositeUniforms, u.InRange ∧ u.viewToCamera = inverted.viewToCamera ∧
      u.nearDepthThreshold = inverted.nearDepthThreshold ∧
      u.farDepthThreshold = inverted.farDepthThreshold ∧
      u.confidenceThreshold = inverted.confidenceThreshold := by
  refine ⟨⟨5, 13421773 / 134217728, by norm_num [float32Value, inverted],
    by norm_num [float32Value, inverted], by norm_num⟩, by decide, ?_⟩
  exact CompositeUniforms_unconstrained inverted.viewToCamera inverted.nearDepthThreshold
    inverted.farDepthThreshold inverted.confidenceThreshold (by decide) (by decide) (by decide)
    (by decide)

end DepthClipper
